import Mathlib

/-!
# Verification model of the shoot-shag-marry game server (`src/server.js`)

A shallow embedding of the lobby/game session state machine of
`server.js`.  JavaScript `Map`s and plain objects with string keys are
modelled as association lists preserving insertion order (`Map.set` /
property assignment updates an existing key in place, keeping its
position, and appends a fresh key at the end).  The nondeterministic
inputs of the program (the random lobby code, the randomly drawn image
triple, the size of the scanned image directory, wall-clock timestamps)
are passed to the transitions as explicit parameters.  Timer intervals
are modelled by a set of live interval identifiers paired with the lobby
code they broadcast to, mirroring `setInterval`/`clearInterval`
handles held in `gameState.timerInterval`.
-/

namespace SSM

/-- One entry of `lobby.participants` in `server.js`. -/
structure Participant where
  username : String
  isHost : Bool
  connected : Bool
deriving Repr, DecidableEq

/-- A vote payload: the three categories, each optionally set
(`vote.shoot && vote.shag && vote.marry` truthiness in `cast-vote` and
`calculateResults`). -/
structure VoteRec where
  shoot : Option String
  shag : Option String
  marry : Option String
deriving Repr, DecidableEq

/-- `lookupA m k`: `m.get(k)` on a JS `Map` / `m[k]` on an object. -/
def lookupA {α : Type} : List (String × α) → String → Option α
  | [], _ => none
  | (k', v) :: t, k => if k' = k then some v else lookupA t k

/-- `setA m k v`: `m.set(k, v)` / `m[k] = v`: update in place if the key
exists (keeping its position), else append at the end. -/
def setA {α : Type} : List (String × α) → String → α → List (String × α)
  | [], k, v => [(k, v)]
  | (k', v') :: t, k, v => if k' = k then (k, v) :: t else (k', v') :: setA t k v

/-- `eraseA m k`: `m.delete(k)` (keys are unique in a JS `Map`, so
removing every occurrence agrees with removing the one entry). -/
def eraseA {α : Type} : List (String × α) → String → List (String × α)
  | [], _ => []
  | (k', v') :: t, k => if k' = k then eraseA t k else (k', v') :: eraseA t k

/-- Lookup with a default (`m[k] || d` for values where `0`/absence both
mean `d`). -/
def lookupD {α : Type} (m : List (String × α)) (k : String) (d : α) : α :=
  (lookupA m k).getD d

/-- The `lobby` record created by `POST /api/lobby/create`
(`createdAt` is omitted: no claim observes it). -/
structure Lobby where
  code : String
  host : String
  participants : List Participant
  gameStarted : Bool
deriving Repr, DecidableEq

/-- The `gameState` record created by the `start-game` handler.
`timerInterval` holds the identifier of the owned `setInterval` handle
(`null` modelled as `none`). -/
structure GameState where
  phase : String
  roundNumber : Nat
  totalRounds : Nat
  currentImages : List String
  votes : List (String × VoteRec)
  scores : List (String × Nat)
  timer : Int
  timerInterval : Option Nat
deriving Repr, DecidableEq

/-- Is a vote payload complete (`vote.shoot && vote.shag && vote.marry`)?
Image identifiers are nonempty path strings, so JS truthiness is
`isSome`. -/
def VoteRec.complete (v : VoteRec) : Bool :=
  v.shoot.isSome && v.shag.isSome && v.marry.isSome

/-- `categoryVotes[cat][img] = (categoryVotes[cat][img] || 0) + 1`. -/
def bump (m : List (String × Nat)) (img : String) : List (String × Nat) :=
  setA m img (lookupD m img 0 + 1)

/-- The three per-category tallies built by `calculateResults`. -/
structure Tally where
  shoot : List (String × Nat)
  shag : List (String × Nat)
  marry : List (String × Nat)
deriving Repr, DecidableEq

/-- One iteration of the `lobby.participants.forEach` loop of
`calculateResults` (lines 399-411): a connected participant with a
complete recorded vote is appended to `validVoters` and bumps the three
category tallies. -/
def collectStep (votes : List (String × VoteRec)) (acc : Tally × List String)
    (p : Participant) : Tally × List String :=
  if p.connected then
    match lookupA votes p.username with
    | some v =>
      match v.shoot, v.shag, v.marry with
      | some a, some b, some c =>
        (⟨bump acc.1.shoot a, bump acc.1.shag b, bump acc.1.marry c⟩,
         acc.2 ++ [p.username])
      | _, _, _ => acc
    | none => acc
  else acc

/-- The whole roster loop: iterate `lobby.participants` in roster
order. -/
def collectVotes (parts : List Participant) (votes : List (String × VoteRec)) :
    Tally × List String :=
  parts.foldl (collectStep votes) (⟨[], [], []⟩, [])

/-- The `Object.entries(votes).forEach` maximum scan of
`calculateResults` (lines 420-429): strictly-greater count replaces the
running maximum, so ties keep the earlier entry. -/
def findMajority (t : List (String × Nat)) : Nat × Option String :=
  t.foldl (fun acc e => if e.2 > acc.1 then (e.2, some e.1) else acc) (0, none)

/-- Majority for one category including the zero-votes default
(lines 431-434): if the scan produced no image, fall back to
`currentImages[0]` when the round has images. -/
def majorityFor (t : List (String × Nat)) (currentImages : List String) :
    Option String :=
  match (findMajority t).2 with
  | some i => some i
  | none => currentImages.head?

/-- The per-category majority choices record. -/
structure Majorities where
  shoot : Option String
  shag : Option String
  marry : Option String
deriving Repr, DecidableEq

/-- One iteration of the point-award loop of `calculateResults`
(lines 444-461): a valid voter whose vote matches all three majorities
gets `scores[u] = (scores[u] || 0) + 1` and joins `winners`. -/
def awardStep (votes : List (String × VoteRec)) (mj : Majorities)
    (acc : List (String × Nat) × List String) (u : String) :
    List (String × Nat) × List String :=
  match lookupA votes u with
  | some v =>
    if v.shoot = mj.shoot ∧ v.shag = mj.shag ∧ v.marry = mj.marry then
      (setA acc.1 u (lookupD acc.1 u 0 + 1), acc.2 ++ [u])
    else acc
  | none => acc

/-- The whole award loop over `validVoters`. -/
def awardPoints (validVoters : List String) (votes : List (String × VoteRec))
    (mj : Majorities) (scores : List (String × Nat)) :
    List (String × Nat) × List String :=
  validVoters.foldl (awardStep votes mj) (scores, [])

/-- `calculateResults` (lines 384-479) as a pure function of the lobby
and game state: returns the updated game state (scores updated, phase
`results`), the majority choices, the valid voters and the winners
(the registry lookup guard and the emitted events live in the
transition system below). -/
def calculateResultsCore (lobby : Lobby) (g : GameState) :
    GameState × Majorities × List String × List String :=
  let tv := collectVotes lobby.participants g.votes
  let mj : Majorities :=
    ⟨majorityFor tv.1.shoot g.currentImages,
     majorityFor tv.1.shag g.currentImages,
     majorityFor tv.1.marry g.currentImages⟩
  let aw := awardPoints tv.2 g.votes mj g.scores
  ({ g with scores := aw.1, phase := "results" }, mj, tv.2, aw.2)

/-- A tally over the votes map in its own insertion order — the order in
which complete votes were first received — restricted to connected
participants with complete votes.  This follows the SPEC'S words
("tally in a stable, deterministic iteration order — insertion order of
first vote received"), for comparison against `collectVotes`, which is
what the source actually does (roster order). -/
def voteOrderTally (parts : List Participant) (votes : List (String × VoteRec))
    (sel : VoteRec → Option String) : List (String × Nat) :=
  votes.foldl
    (fun t e =>
      if (parts.any fun p => p.username = e.1 && p.connected) && e.2.complete then
        match sel e.2 with
        | some img => bump t img
        | none => t
      else t)
    []

/-- Majority as the spec's words describe it for one category: highest
count in first-vote-received tally order, ties to the first
encountered, with the same `currentImages[0]` default. -/
def voteOrderMajority (parts : List Participant) (votes : List (String × VoteRec))
    (sel : VoteRec → Option String) (currentImages : List String) : Option String :=
  majorityFor (voteOrderTally parts votes sel) currentImages

/-! ## The server state and its event transitions -/

/-- One record of the `disconnectedPlayers` map. -/
structure DiscInfo where
  code : String
  timestamp : Nat
deriving Repr, DecidableEq

/-- An observable output of the server: a broadcast to a lobby's room, a
`game-timer` tick broadcast, a unicast `error`, or the `round-results`
payload (kept with the fields the claims observe). -/
inductive Emit where
  | ev (name code : String)
  | timerEv (code : String)
  | errorTo (username msg : String)
  | roundResults (code : String) (mj : Majorities) (winners : List String)
deriving Repr, DecidableEq

/-- The whole mutable server state: the three global maps of
`server.js`, the set of live `setInterval` handles (identifier paired
with the lobby code its closure broadcasts to), a fresh-identifier
counter, and the log of emitted events. -/
structure Srv where
  lobbies : List (String × Lobby)
  gameStates : List (String × GameState)
  disconnectedPlayers : List (String × DiscInfo)
  liveTimers : List (Nat × String)
  nextT : Nat
  log : List Emit
deriving Repr, DecidableEq

/-- The state at process start: all maps empty. -/
def Srv.start : Srv := ⟨[], [], [], [], 0, []⟩

/-- `lobby.participants.find(p => p.username === u); p.connected = true`:
mutate the first matching entry. -/
def markConnected : List Participant → String → List Participant
  | [], _ => []
  | p :: t, u =>
    if p.username = u then { p with connected := true } :: t
    else p :: markConnected t u

/-- Same, setting `connected = false`. -/
def markDisconnected : List Participant → String → List Participant
  | [], _ => []
  | p :: t, u =>
    if p.username = u then { p with connected := false } :: t
    else p :: markDisconnected t u

/-- `participants.find(p => p.username === u)` as a Bool. -/
def hasParticipant (ps : List Participant) (u : String) : Bool :=
  ps.any (fun p => p.username = u)

/-- `participants.filter(p => p.username !== u)`. -/
def removeParticipant (ps : List Participant) (u : String) : List Participant :=
  ps.filter (fun p => p.username ≠ u)

/-- `participants.forEach(p => scores[p.username] = 0)`. -/
def zeroScores (ps : List Participant) (sc : List (String × Nat)) :
    List (String × Nat) :=
  ps.foldl (fun m p => setA m p.username 0) sc

/-- `clearInterval(handle)`: remove the identifier from the live set
(a no-op when the handle is `null` or already cleared). -/
def clearHandle (live : List (Nat × String)) : Option Nat → List (Nat × String)
  | some id => live.filter (fun e => e.1 ≠ id)
  | none => live

/-- The error message of the insufficient-images rejection. -/
def imgMsg : String :=
  "Need at least 3 images to play Shoot Shag Marry. Please add more images to the images folder"

/-- `POST /api/lobby/create` (lines 87-106): validate the username,
build the lobby, `lobbies.set(code, lobby)`.  The random code is an
explicit parameter; there is no collision check before the `set`. -/
def createLobby (s : Srv) (username code : String) : Srv :=
  if username.length < 2 then s
  else
    let l : Lobby := ⟨code, username, [⟨username, true, true⟩], false⟩
    { s with lobbies := setA s.lobbies code l }

/-- `POST /api/lobby/join` (lines 108-137): reconnection marks the
existing participant connected; otherwise a non-host participant is
appended and, when a game is active, that username's score is
initialized to 0.  `disconnectedPlayers` is untouched on either path. -/
def joinLobby (s : Srv) (code username : String) : Srv :=
  if code = "" ∨ username = "" then s
  else
    match lookupA s.lobbies code with
    | none => s
    | some l =>
      if hasParticipant l.participants username then
        let l' := { l with participants := markConnected l.participants username }
        { s with lobbies := setA s.lobbies code l' }
      else
        let l' := { l with participants := l.participants ++ [⟨username, false, true⟩] }
        let s1 := { s with lobbies := setA s.lobbies code l' }
        match lookupA s.gameStates code with
        | some g =>
          let g' := { g with scores := setA g.scores username 0 }
          { s1 with gameStates := setA s.gameStates code g' }
        | none => s1

/-- The `join-lobby` socket handler (lines 143-158): mark the
participant connected and broadcast `lobby-updated`. -/
def joinLobbySocket (s : Srv) (code username : String) : Srv :=
  match lookupA s.lobbies code with
  | none => s
  | some l =>
    let l' := { l with participants := markConnected l.participants username }
    { s with
      lobbies := setA s.lobbies code l',
      log := s.log ++ [Emit.ev "lobby-updated" code] }

/-- The `leave-lobby` handler (lines 160-187).  Mid-game (phase ≠
`waiting`): mark disconnected, record in `disconnectedPlayers`,
broadcast `lobby-updated`.  Otherwise remove the participant; if the
roster empties or the leaver is the host, delete both registry entries
and broadcast `lobby-closed` — note the source clears no timer on this
path. -/
def leaveLobby (s : Srv) (code username : String) (now : Nat) : Srv :=
  match lookupA s.lobbies code with
  | none => s
  | some l =>
    let midGame : Bool := match lookupA s.gameStates code with
      | some g => g.phase != "waiting"
      | none => false
    if midGame then
      let l' := if hasParticipant l.participants username then
          { l with participants := markDisconnected l.participants username }
        else l
      let dp' := if hasParticipant l.participants username then
          setA s.disconnectedPlayers username ⟨code, now⟩
        else s.disconnectedPlayers
      { s with lobbies := setA s.lobbies code l',
               disconnectedPlayers := dp',
               log := s.log ++ [Emit.ev "lobby-updated" code] }
    else
      let parts' := removeParticipant l.participants username
      if parts'.length = 0 ∨ username = l.host then
        { s with lobbies := eraseA s.lobbies code,
                 gameStates := eraseA s.gameStates code,
                 log := s.log ++ [Emit.ev "lobby-closed" code] }
      else
        { s with lobbies := setA s.lobbies code { l with participants := parts' },
                 log := s.log ++ [Emit.ev "lobby-updated" code] }

/-- The `start-game` handler (lines 189-225): host with ≥ 2 participants
required; fewer than 3 images is rejected with a unicast error before
any mutation; otherwise `gameStarted` is set, a fresh game state with
all-zero scores replaces any existing one (the source does not clear a
previously running timer of a replaced game state), and `game-started`
is broadcast.  The 2-second pre-roll is the separate
`startDiscussionPhase` transition. -/
def startGame (s : Srv) (code username : String) (imgCount : Nat) : Srv :=
  match lookupA s.lobbies code with
  | none => s
  | some l =>
    if l.host = username ∧ 2 ≤ l.participants.length then
      if imgCount < 3 then
        { s with log := s.log ++ [Emit.errorTo username imgMsg] }
      else
        let g : GameState :=
          ⟨"discussion", 1, 30, [], [], zeroScores l.participants [], 60, none⟩
        { s with
          lobbies := setA s.lobbies code { l with gameStarted := true },
          gameStates := setA s.gameStates code g,
          log := s.log ++ [Emit.ev "game-started" code] }
    else s

/-- The `cast-vote` handler (lines 227-238): phase must be `voting`, the
username must not have a recorded vote, and the payload must set all
three categories. -/
def castVote (s : Srv) (code username : String) (v : VoteRec) : Srv :=
  match lookupA s.gameStates code with
  | none => s
  | some g =>
    if g.phase = "voting" ∧ lookupA g.votes username = none ∧ v.complete then
      let g' := { g with votes := setA g.votes username v }
      { s with gameStates := setA s.gameStates code g' }
    else s

/-- The `restart-game` handler (lines 240-271): requires an existing
lobby and game and that the sender's socket username equals the host;
fewer than 3 images is rejected with a unicast error; otherwise the
game state is reset in place (round 1, empty votes, scores of the
CURRENT participants zeroed — entries of departed players persist), the
owned interval is cleared, and `game-started` is broadcast.  There is no
participant-count check. -/
def restartGame (s : Srv) (code username : String) (imgCount : Nat) : Srv :=
  match lookupA s.lobbies code, lookupA s.gameStates code with
  | some l, some g =>
    if username = l.host then
      if imgCount < 3 then
        { s with log := s.log ++ [Emit.errorTo username imgMsg] }
      else
        let g' := { g with phase := "discussion", roundNumber := 1,
                           currentImages := [], votes := [], timer := 60,
                           scores := zeroScores l.participants g.scores }
        { s with
          gameStates := setA s.gameStates code g',
          liveTimers := clearHandle s.liveTimers g.timerInterval,
          log := s.log ++ [Emit.ev "game-started" code] }
    else s
  | _, _ => s

/-- The `disconnect` handler (lines 273-309), for a socket whose
`join-lobby` recorded `code`/`username`.  Unlike `leave-lobby`, it acts
only when the username is on the roster, and its teardown branch DOES
clear the game's owned timer. -/
def disconnectSocket (s : Srv) (code username : String) (now : Nat) : Srv :=
  match lookupA s.lobbies code with
  | none => s
  | some l =>
    if hasParticipant l.participants username then
      let midGame : Bool := match lookupA s.gameStates code with
        | some g => g.phase != "waiting"
        | none => false
      if midGame then
        let l' := { l with participants := markDisconnected l.participants username }
        { s with
          lobbies := setA s.lobbies code l',
          disconnectedPlayers := setA s.disconnectedPlayers username ⟨code, now⟩,
          log := s.log ++ [Emit.ev "lobby-updated" code] }
      else
        let parts' := removeParticipant l.participants username
        if parts'.length = 0 ∨ username = l.host then
          let live' := match lookupA s.gameStates code with
            | some g => clearHandle s.liveTimers g.timerInterval
            | none => s.liveTimers
          { s with lobbies := eraseA s.lobbies code,
                   gameStates := eraseA s.gameStates code,
                   liveTimers := live',
                   log := s.log ++ [Emit.ev "lobby-closed" code] }
        else
          { s with lobbies := setA s.lobbies code { l with participants := parts' },
                   log := s.log ++ [Emit.ev "lobby-updated" code] }
    else s

/-- One entry's work inside the periodic cleanup interval
(lines 313-327): a record older than 5 minutes removes that username
from its lobby's roster (no host check, no lobby deletion) and drops
the record. -/
def sweepOne (now : Nat) (s : Srv) (e : String × DiscInfo) : Srv :=
  if now - e.2.timestamp > 300000 then
    let s1 := match lookupA s.lobbies e.2.code with
      | some l =>
        let l' := { l with participants := removeParticipant l.participants e.1 }
        { s with lobbies := setA s.lobbies e.2.code l',
                 log := s.log ++ [Emit.ev "lobby-updated" e.2.code] }
      | none => s
    { s1 with disconnectedPlayers := eraseA s1.disconnectedPlayers e.1 }
  else s

/-- The periodic `disconnectedPlayers` cleanup sweep: iterate the map in
insertion order (each iteration may delete only the entry at hand, so
folding over a snapshot matches the JS `forEach`). -/
def cleanupSweep (s : Srv) (now : Nat) : Srv :=
  s.disconnectedPlayers.foldl (sweepOne now) s

/-- `startTimer` (lines 521-541): set the countdown, clear the
previously owned interval, install a fresh one and record its handle. -/
def startTimer (s : Srv) (code : String) (seconds : Int) : Srv :=
  match lookupA s.gameStates code with
  | none => s
  | some g =>
    { s with
      gameStates := setA s.gameStates code
        { g with timer := seconds, timerInterval := some s.nextT },
      liveTimers := clearHandle s.liveTimers g.timerInterval ++ [(s.nextT, code)],
      nextT := s.nextT + 1 }

/-- `endGame` (lines 507-519): clear the owned interval and broadcast
`game-ended` with the final scores.  The phase field is NOT changed and
the registry entries are NOT removed. -/
def endGame (s : Srv) (code : String) : Srv :=
  match lookupA s.gameStates code with
  | none => s
  | some g =>
    { s with liveTimers := clearHandle s.liveTimers g.timerInterval,
             log := s.log ++ [Emit.ev "game-ended" code] }

/-- `startDiscussionPhase` (lines 330-367).  The randomly drawn triple
and the current image-directory size are explicit parameters
(`getRandomImages` returns `[]` when fewer than 3 images exist). -/
def startDiscussionPhase (s : Srv) (code : String) (imgs : List String)
    (imgCount : Nat) : Srv :=
  match lookupA s.gameStates code, lookupA s.lobbies code with
  | some g, some _ =>
    if imgCount < 3 ∨ g.roundNumber > g.totalRounds then endGame s code
    else
      let selected := if imgCount < 3 then [] else imgs
      if selected.length < 3 then endGame s code
      else
        let s1 :=
          { s with
            gameStates := setA s.gameStates code
              { g with currentImages := selected, phase := "discussion",
                       votes := [], timer := 60 },
            liveTimers := clearHandle s.liveTimers g.timerInterval,
            log := s.log ++ [Emit.ev "images-selected" code,
                             Emit.ev "game-phase-update" code] }
        startTimer s1 code 60
  | _, _ => s

/-- `startVotingPhase` (lines 369-382). -/
def startVotingPhase (s : Srv) (code : String) : Srv :=
  match lookupA s.gameStates code with
  | none => s
  | some g =>
    let s1 :=
      { s with
        gameStates := setA s.gameStates code { g with phase := "voting", timer := 30 },
        log := s.log ++ [Emit.ev "game-phase-update" code] }
    startTimer s1 code 30

/-- `calculateResults` (lines 384-479) at the server level: guard on the
registry, run the pure core, store the updated game state and broadcast
the phase update and the round results.  The 5-second wait to the
scoreboard is the separate `showScoreboard` transition. -/
def calculateResults (s : Srv) (code : String) : Srv :=
  match lookupA s.gameStates code, lookupA s.lobbies code with
  | some g, some l =>
    let r := calculateResultsCore l g
    { s with
      gameStates := setA s.gameStates code r.1,
      log := s.log ++ [Emit.ev "game-phase-update" code,
                       Emit.roundResults code r.2.1 r.2.2.2] }
  | _, _ => s

/-- `showScoreboard`, outer part (lines 481-489): set phase
`scoreboard` and broadcast the cumulative scores. -/
def showScoreboard (s : Srv) (code : String) : Srv :=
  match lookupA s.gameStates code with
  | none => s
  | some g =>
    { s with
      gameStates := setA s.gameStates code { g with phase := "scoreboard" },
      log := s.log ++ [Emit.ev "game-phase-update" code,
                       Emit.ev "scoreboard-update" code] }

/-- The 5-second callback inside `showScoreboard` (lines 491-504):
increment `roundNumber`; past `totalRounds` call `endGame`, else enter
`waiting` (the 3-second gap to the next discussion is a further
`startDiscussionPhase` transition).  The source closure mutates the
captured game-state object; that object is the registry entry in every
schedulable trace in which the entry was not replaced during the wait,
and all traces used below are of that form. -/
def scoreboardAdvance (s : Srv) (code : String) : Srv :=
  match lookupA s.gameStates code with
  | none => s
  | some g =>
    let rn := g.roundNumber + 1
    if rn > g.totalRounds then
      endGame { s with gameStates := setA s.gameStates code { g with roundNumber := rn } } code
    else
      { s with
        gameStates := setA s.gameStates code
          { g with roundNumber := rn, phase := "waiting" },
        log := s.log ++ [Emit.ev "game-phase-update" code] }

/-- One 1-second tick of a live interval: decrement the captured game
state's countdown and broadcast `game-timer` to the interval's room —
the tick body has no liveness guard, so it fires for orphaned intervals
and deleted sessions alike. -/
def timerTick (s : Srv) (id : Nat) : Srv :=
  match s.liveTimers.find? (fun e => e.1 = id) with
  | none => s
  | some e =>
    let gs := match lookupA s.gameStates e.2 with
      | some g =>
        if g.timerInterval = some id then
          setA s.gameStates e.2 { g with timer := g.timer - 1 }
        else s.gameStates
      | none => s.gameStates
    { s with gameStates := gs, log := s.log ++ [Emit.timerEv e.2] }

/-- The expiring tick (`timer <= 0`, lines 535-539): the interval clears
itself and nulls the handle of the game state its closure captured (a
no-op on the current registry entry when that entry was replaced).  The
`callback()` body is the separate follow-up transition. -/
def timerExpire (s : Srv) (id : Nat) : Srv :=
  match s.liveTimers.find? (fun e => e.1 = id) with
  | none => s
  | some e =>
    let gs := match lookupA s.gameStates e.2 with
      | some g =>
        if g.timerInterval = some id then
          setA s.gameStates e.2 { g with timerInterval := none }
        else s.gameStates
      | none => s.gameStates
    { s with gameStates := gs,
             liveTimers := s.liveTimers.filter (fun e' => e'.1 ≠ id) }

/-- The inbound events and scheduled callbacks that drive the server. -/
inductive Ev where
  | createLobby (username code : String)
  | joinLobby (code username : String)
  | joinLobbySocket (code username : String)
  | leaveLobby (code username : String) (now : Nat)
  | startGame (code username : String) (imgCount : Nat)
  | castVote (code username : String) (v : VoteRec)
  | restartGame (code username : String) (imgCount : Nat)
  | disconnectSocket (code username : String) (now : Nat)
  | sweep (now : Nat)
  | cbDiscussion (code : String) (imgs : List String) (imgCount : Nat)
  | cbVoting (code : String)
  | cbResults (code : String)
  | cbScoreboard (code : String)
  | cbScoreboardInner (code : String)
  | tick (id : Nat)
  | expire (id : Nat)
deriving Repr, DecidableEq

/-- The one-step transition function of the server. -/
def step (s : Srv) : Ev → Srv
  | .createLobby u c => createLobby s u c
  | .joinLobby c u => joinLobby s c u
  | .joinLobbySocket c u => joinLobbySocket s c u
  | .leaveLobby c u now => leaveLobby s c u now
  | .startGame c u n => startGame s c u n
  | .castVote c u v => castVote s c u v
  | .restartGame c u n => restartGame s c u n
  | .disconnectSocket c u now => disconnectSocket s c u now
  | .sweep now => cleanupSweep s now
  | .cbDiscussion c imgs n => startDiscussionPhase s c imgs n
  | .cbVoting c => startVotingPhase s c
  | .cbResults c => calculateResults s c
  | .cbScoreboard c => showScoreboard s c
  | .cbScoreboardInner c => scoreboardAdvance s c
  | .tick id => timerTick s id
  | .expire id => timerExpire s id

/-- Run a sequence of events from a state. -/
def run (s : Srv) (evs : List Ev) : Srv :=
  evs.foldl step s

/-- The states the server can reach (an over-approximation: callbacks
may fire at any point, which only adds states). -/
inductive Reachable : Srv → Prop where
  | start : Reachable Srv.start
  | step {s : Srv} (e : Ev) : Reachable s → Reachable (step s e)

/-! ## Derived notions used by the claims -/

/-- The body of the maximum scan of `calculateResults` as a named
function (definitionally the fold step of `findMajority`). -/
def majStep (acc : Nat × Option String) (e : String × Nat) : Nat × Option String :=
  if e.2 > acc.1 then (e.2, some e.1) else acc

/-- The maximal count appearing in a tally. -/
def maxCount : List (String × Nat) → Nat
  | [] => 0
  | e :: t => max e.2 (maxCount t)

/-- The first entry of a tally (in tally order) whose count attains the
maximum — the "first-encountered" tie-break winner. -/
def firstMax (t : List (String × Nat)) : Option String :=
  (t.find? (fun e => decide (maxCount t ≤ e.2))).map Prod.fst

/-- Every lobby in a registry list has at most one `isHost`
participant. -/
abbrev lobbiesHostUnique (m : List (String × Lobby)) : Prop :=
  ∀ e ∈ m, (e.2.participants.countP (fun p => p.isHost)) ≤ 1

/-- Every lobby in a registry list has its host username on its
roster. -/
abbrev lobbiesHostMember (m : List (String × Lobby)) : Prop :=
  ∀ e ∈ m, e.2.host ∈ e.2.participants.map Participant.username

/-- At most one `isHost=true` participant per registered lobby. -/
abbrev atMostOneHost (s : Srv) : Prop := lobbiesHostUnique s.lobbies

/-- The host of every registered lobby is on its roster. -/
abbrev hostOnRoster (s : Srv) : Prop := lobbiesHostMember s.lobbies

/-! ## Concrete traces and states used by the claims -/

/-- The state holding alice's lobby under code `ABCDEF`. -/
def c5pre : Srv := run Srv.start [Ev.createLobby "alice" "ABCDEF"]

/-- The reachable state for C9's witness: alice's lobby with bob
joined, no game. -/
def c9pre : Srv :=
  run Srv.start [Ev.createLobby "alice" "AAAAAA", Ev.joinLobby "AAAAAA" "bob"]

/-- Bob's vote: shoot I2, shag I1, marry I3. -/
def c1voteBob : VoteRec := ⟨some "I2", some "I1", some "I3"⟩

/-- Alice's vote: shoot I1, shag I2, marry I3. -/
def c1voteAlice : VoteRec := ⟨some "I1", some "I2", some "I3"⟩

/-- A full round in which bob's complete vote arrives before alice's,
while alice precedes bob on the roster; each shoot/shag tally ends
tied 1-1. -/
def c1trace : List Ev :=
  [Ev.createLobby "alice" "AAAAAA",
   Ev.joinLobby "AAAAAA" "bob",
   Ev.startGame "AAAAAA" "alice" 5,
   Ev.cbDiscussion "AAAAAA" ["I1", "I2", "I3"] 5,
   Ev.expire 0,
   Ev.cbVoting "AAAAAA",
   Ev.castVote "AAAAAA" "bob" c1voteBob,
   Ev.castVote "AAAAAA" "alice" c1voteAlice,
   Ev.expire 1]

/-- The state just before the voting timer's callback tallies. -/
def c1mid : Srv := run Srv.start c1trace

/-- The state after `calculateResults` ran. -/
def c1fin : Srv := step c1mid (Ev.cbResults "AAAAAA")

/-- The roster of `c1mid`'s lobby (alice first). -/
def c1roster : List Participant :=
  [⟨"alice", true, true⟩, ⟨"bob", false, true⟩]

/-- The votes map of `c1mid`'s game (bob's vote first: received
first). -/
def c1votesList : List (String × VoteRec) :=
  [("bob", c1voteBob), ("alice", c1voteAlice)]

/-- Host alice marked disconnected mid-game, then the grace sweep fires
5 minutes later. -/
def c2trace : List Ev :=
  [Ev.createLobby "alice" "AAAAAA",
   Ev.joinLobby "AAAAAA" "bob",
   Ev.startGame "AAAAAA" "alice" 5,
   Ev.cbDiscussion "AAAAAA" ["I1", "I2", "I3"] 5,
   Ev.leaveLobby "AAAAAA" "alice" 1000,
   Ev.sweep 302000]

/-- The state after the sweep removed the disconnected host. -/
def c2fin : Srv := run Srv.start c2trace

/-- A small reachable state for C2's witness. -/
def c2wit : Srv :=
  run Srv.start [Ev.createLobby "alice" "AAAAAA", Ev.joinLobby "AAAAAA" "bob"]

/-- The host sends `start-game` a second time while round 1's discussion
interval (identifier 0) is still running. -/
def c3trace : List Ev :=
  [Ev.createLobby "alice" "AAAAAA",
   Ev.joinLobby "AAAAAA" "bob",
   Ev.startGame "AAAAAA" "alice" 5,
   Ev.cbDiscussion "AAAAAA" ["I1", "I2", "I3"] 5,
   Ev.startGame "AAAAAA" "alice" 5]

/-- The state right after the second `start-game`. -/
def c3mid : Srv := run Srv.start c3trace

/-- The state after the second game's discussion installs its own
interval. -/
def c3next : Srv := step c3mid (Ev.cbDiscussion "AAAAAA" ["I1", "I2", "I3"] 5)

/-- A second `start-game` mid-voting orphans the voting interval
(identifier 1); its later expiry drives the replacement game through
results/scoreboard into `waiting` while the replacement's own discussion
interval (identifier 2) is still live; the host then leaves, which
deletes the session without clearing any interval. -/
def c4trace : List Ev :=
  [Ev.createLobby "alice" "AAAAAA",
   Ev.joinLobby "AAAAAA" "bob",
   Ev.joinLobbySocket "AAAAAA" "alice",
   Ev.joinLobbySocket "AAAAAA" "bob",
   Ev.startGame "AAAAAA" "alice" 5,
   Ev.cbDiscussion "AAAAAA" ["I1", "I2", "I3"] 5,
   Ev.expire 0,
   Ev.cbVoting "AAAAAA",
   Ev.startGame "AAAAAA" "alice" 5,
   Ev.cbDiscussion "AAAAAA" ["I1", "I2", "I3"] 5,
   Ev.expire 1,
   Ev.cbResults "AAAAAA",
   Ev.cbScoreboard "AAAAAA",
   Ev.cbScoreboardInner "AAAAAA",
   Ev.leaveLobby "AAAAAA" "alice" 100000]

/-- The torn-down state with interval 2 still live. -/
def c4fin : Srv := run Srv.start c4trace

/-- A full round after which bob leaves during the `waiting` phase,
leaving the host alone with a live game. -/
def c6trace : List Ev :=
  [Ev.createLobby "alice" "AAAAAA",
   Ev.joinLobby "AAAAAA" "bob",
   Ev.startGame "AAAAAA" "alice" 5,
   Ev.cbDiscussion "AAAAAA" ["I1", "I2", "I3"] 5,
   Ev.expire 0,
   Ev.cbVoting "AAAAAA",
   Ev.expire 1,
   Ev.cbResults "AAAAAA",
   Ev.cbScoreboard "AAAAAA",
   Ev.cbScoreboardInner "AAAAAA",
   Ev.leaveLobby "AAAAAA" "bob" 1000]

/-- The single-participant state with a game present. -/
def c6pre : Srv := run Srv.start c6trace

/-- The state after the host's `restart-game` with a 1-member roster. -/
def c6post : Srv := step c6pre (Ev.restartGame "AAAAAA" "alice" 5)

/-- The game state stored in `c6pre`. -/
def c6game : GameState :=
  ⟨"waiting", 2, 30, ["I1", "I2", "I3"], [],
   [("alice", 0), ("bob", 0)], 30, none⟩

/-- The lobby stored in `c6pre` (just the host left). -/
def c6lobby : Lobby :=
  ⟨"AAAAAA", "alice", [⟨"alice", true, true⟩], true⟩

/-- A round completes into the `waiting` gap; the image directory
rescan then leaves only 2 images, so the next discussion entry ends the
game. -/
def c7trace : List Ev :=
  [Ev.createLobby "alice" "AAAAAA",
   Ev.joinLobby "AAAAAA" "bob",
   Ev.startGame "AAAAAA" "alice" 5,
   Ev.cbDiscussion "AAAAAA" ["I1", "I2", "I3"] 5,
   Ev.expire 0,
   Ev.cbVoting "AAAAAA",
   Ev.expire 1,
   Ev.cbResults "AAAAAA",
   Ev.cbScoreboard "AAAAAA",
   Ev.cbScoreboardInner "AAAAAA"]

/-- The waiting-gap state before the image pool shrinks. -/
def c7pre : Srv := run Srv.start c7trace

/-- The game state stored in `c7pre`. -/
def c7game : GameState :=
  ⟨"waiting", 2, 30, ["I1", "I2", "I3"], [],
   [("alice", 0), ("bob", 0)], 30, none⟩

/-- The lobby stored in `c7pre`. -/
def c7lobby : Lobby :=
  ⟨"AAAAAA", "alice",
   [⟨"alice", true, true⟩, ⟨"bob", false, true⟩], true⟩

/-- The ended-but-not-`ended` state: discussion entry with a 2-image
pool. -/
def c7fin : Srv := step c7pre (Ev.cbDiscussion "AAAAAA" [] 2)

/-- The unanimous vote used in C8's round. -/
def c8vote : VoteRec := ⟨some "I1", some "I2", some "I3"⟩

/-- Three players play a round unanimously (everyone scores 1); carol
leaves mid-game, the sweep removes her from the roster, and the host
restarts. -/
def c8trace : List Ev :=
  [Ev.createLobby "alice" "AAAAAA",
   Ev.joinLobby "AAAAAA" "bob",
   Ev.joinLobby "AAAAAA" "carol",
   Ev.startGame "AAAAAA" "alice" 5,
   Ev.cbDiscussion "AAAAAA" ["I1", "I2", "I3"] 5,
   Ev.expire 0,
   Ev.cbVoting "AAAAAA",
   Ev.castVote "AAAAAA" "alice" c8vote,
   Ev.castVote "AAAAAA" "bob" c8vote,
   Ev.castVote "AAAAAA" "carol" c8vote,
   Ev.expire 1,
   Ev.cbResults "AAAAAA",
   Ev.leaveLobby "AAAAAA" "carol" 1000,
   Ev.sweep 302000]

/-- The state just before the restart: carol is off the roster but her
score entry (1 point) is still in the map. -/
def c8pre : Srv := run Srv.start c8trace

/-- The state after the host's restart. -/
def c8post : Srv := step c8pre (Ev.restartGame "AAAAAA" "alice" 5)

/-- A small lobby for C8's witness. -/
def c8lobby : Lobby :=
  ⟨"AAAAAA", "alice",
   [⟨"alice", true, true⟩, ⟨"bob", false, true⟩], true⟩

/-- A small game state for C8's witness, with a stale score entry for
carol. -/
def c8game : GameState :=
  ⟨"voting", 1, 30, ["I1", "I2", "I3"], [("alice", c8vote)],
   [("alice", 0), ("bob", 0), ("carol", 2)], 0, none⟩

/-- Bob disconnected mid-game at time 1000 and his record is in
`disconnectedPlayers`; used to witness C10. -/
def c10pre : Srv :=
  run Srv.start
    [Ev.createLobby "alice" "AAAAAA",
     Ev.joinLobby "AAAAAA" "bob",
     Ev.startGame "AAAAAA" "alice" 5,
     Ev.cbDiscussion "AAAAAA" ["I1", "I2", "I3"] 5,
     Ev.leaveLobby "AAAAAA" "bob" 1000]

/-- The lobby stored in `c10pre` (bob marked disconnected). -/
def c10lobby : Lobby :=
  ⟨"AAAAAA", "alice", [⟨"alice", true, true⟩, ⟨"bob", false, false⟩], true⟩


/-! ## Basic lemmas about the map and roster operations -/

theorem lookupA_setA {α : Type} (m : List (String × α)) (k u : String) (v : α) :
    lookupA (setA m k v) u = if k = u then some v else lookupA m u := by
  induction m with
  | nil => by_cases h : k = u <;> simp [setA, lookupA, h]
  | cons e t ih =>
    obtain ⟨k', v'⟩ := e
    by_cases hk : k' = k
    · subst hk
      by_cases hu : k' = u <;> simp [setA, lookupA, hu]
    · by_cases hu : k' = u
      · subst hu
        have hne : ¬ (k = k') := fun h => hk h.symm
        simp [setA, lookupA, hk, hne]
      · simp [setA, lookupA, hk, hu, ih]

theorem mem_setA {α : Type} {m : List (String × α)} {k : String} {v : α}
    {x : String × α} (hx : x ∈ setA m k v) : x = (k, v) ∨ x ∈ m := by
  induction m with
  | nil => simpa [setA] using hx
  | cons e t ih =>
    obtain ⟨k', v'⟩ := e
    by_cases hk : k' = k
    · subst hk
      rw [setA, if_pos rfl] at hx
      rcases List.mem_cons.mp hx with h1 | h1
      · exact Or.inl h1
      · exact Or.inr (List.mem_cons_of_mem _ h1)
    · rw [setA, if_neg hk] at hx
      rcases List.mem_cons.mp hx with h1 | h1
      · exact Or.inr (by simp [h1])
      · rcases ih h1 with h2 | h2
        · exact Or.inl h2
        · exact Or.inr (by simp [h2])

theorem lookupA_eraseA {α : Type} (m : List (String × α)) (k u : String) :
    lookupA (eraseA m k) u = if k = u then none else lookupA m u := by
  induction m with
  | nil => by_cases h : k = u <;> simp [eraseA, lookupA, h]
  | cons e t ih =>
    obtain ⟨k', v'⟩ := e
    by_cases hk : k' = k
    · subst hk
      by_cases hu : k' = u
      · subst hu
        simp [eraseA, lookupA, ih]
      · simp [eraseA, lookupA, hu, ih]
    · by_cases hu : k' = u
      · subst hu
        have hne : ¬ (k = k') := fun h => hk h.symm
        simp [eraseA, lookupA, hk, hne]
      · simp [eraseA, lookupA, hk, hu, ih]

theorem lookupA_mem {α : Type} {m : List (String × α)} {k : String} {v : α}
    (h : lookupA m k = some v) : (k, v) ∈ m := by
  induction m with
  | nil => simp [lookupA] at h
  | cons e t ih =>
    obtain ⟨k', v'⟩ := e
    by_cases hk : k' = k
    · subst hk
      simp [lookupA] at h
      simp [h]
    · simp [lookupA, hk] at h
      exact List.mem_cons_of_mem _ (ih h)

theorem mem_eraseA {α : Type} {m : List (String × α)} {k : String}
    {x : String × α} (h : x ∈ eraseA m k) : x ∈ m := by
  induction m with
  | nil => simp [eraseA] at h
  | cons e t ih =>
    obtain ⟨k', v'⟩ := e
    by_cases hk : k' = k
    · subst hk
      rw [eraseA, if_pos rfl] at h
      exact List.mem_cons_of_mem _ (ih h)
    · rw [eraseA, if_neg hk] at h
      rcases List.mem_cons.mp h with h1 | h1
      · simp [h1]
      · exact List.mem_cons_of_mem _ (ih h1)

theorem foldl_inv {β σ : Type} {P : σ → Prop} {f : σ → β → σ}
    (hf : ∀ a b, P a → P (f a b)) :
    ∀ (l : List β) (a : σ), P a → P (l.foldl f a) := by
  intro l
  induction l with
  | nil => intro a ha; exact ha
  | cons b t ih => intro a ha; exact ih (f a b) (hf a b ha)

theorem countP_markConnected (ps : List Participant) (u : String) :
    (markConnected ps u).countP (fun p => p.isHost) =
      ps.countP (fun p => p.isHost) := by
  induction ps with
  | nil => rfl
  | cons p t ih =>
    by_cases h : p.username = u
    · rw [markConnected, if_pos h]
      simp [List.countP_cons]
    · rw [markConnected, if_neg h]
      simp [List.countP_cons, ih]

theorem countP_markDisconnected (ps : List Participant) (u : String) :
    (markDisconnected ps u).countP (fun p => p.isHost) =
      ps.countP (fun p => p.isHost) := by
  induction ps with
  | nil => rfl
  | cons p t ih =>
    by_cases h : p.username = u
    · rw [markDisconnected, if_pos h]
      simp [List.countP_cons]
    · rw [markDisconnected, if_neg h]
      simp [List.countP_cons, ih]

theorem countP_removeParticipant_le (ps : List Participant) (u : String) :
    (removeParticipant ps u).countP (fun p => p.isHost) ≤
      ps.countP (fun p => p.isHost) := by
  induction ps with
  | nil => exact Nat.le_refl _
  | cons p t ih =>
    simp only [removeParticipant] at ih ⊢
    rw [List.filter_cons]
    by_cases h : p.username = u
    · rw [if_neg (by simp [h]), List.countP_cons]
      exact Nat.le_trans ih (Nat.le_add_right _ _)
    · rw [if_pos (by simp [h]), List.countP_cons, List.countP_cons]
      exact Nat.add_le_add_right ih _

theorem usernames_markConnected (ps : List Participant) (u : String) :
    (markConnected ps u).map Participant.username =
      ps.map Participant.username := by
  induction ps with
  | nil => rfl
  | cons p t ih =>
    by_cases h : p.username = u
    · rw [markConnected, if_pos h]; simp
    · rw [markConnected, if_neg h]; simp [ih]

theorem usernames_markDisconnected (ps : List Participant) (u : String) :
    (markDisconnected ps u).map Participant.username =
      ps.map Participant.username := by
  induction ps with
  | nil => rfl
  | cons p t ih =>
    by_cases h : p.username = u
    · rw [markDisconnected, if_pos h]; simp
    · rw [markDisconnected, if_neg h]; simp [ih]

theorem mem_usernames_removeParticipant {ps : List Participant} {x u : String}
    (hx : x ≠ u) (h : x ∈ ps.map Participant.username) :
    x ∈ (removeParticipant ps u).map Participant.username := by
  rcases List.mem_map.mp h with ⟨p, hp, rfl⟩
  refine List.mem_map.mpr ⟨p, ?_, rfl⟩
  exact List.mem_filter.mpr ⟨hp, by simpa using hx⟩

theorem hasParticipant_removeParticipant (ps : List Participant) (u : String) :
    hasParticipant (removeParticipant ps u) u = false := by
  simp only [hasParticipant, removeParticipant, List.any_eq_false]
  intro p hp
  have := (List.mem_filter.mp hp).2
  simpa using this

theorem markConnected_mem_connected {ps : List Participant} {u : String}
    (h : hasParticipant ps u = true) :
    ∃ p ∈ markConnected ps u, p.username = u ∧ p.connected = true := by
  induction ps with
  | nil => simp [hasParticipant] at h
  | cons p t ih =>
    by_cases hu : p.username = u
    · refine ⟨{ p with connected := true }, ?_, hu, rfl⟩
      rw [markConnected, if_pos hu]
      exact List.mem_cons_self _ _
    · have ht : hasParticipant t u = true := by
        simpa [hasParticipant, hu] using h
      rcases ih ht with ⟨q, hq, hq1, hq2⟩
      refine ⟨q, ?_, hq1, hq2⟩
      rw [markConnected, if_neg hu]
      exact List.mem_cons_of_mem _ hq

/-- Runs extend reachability. -/
theorem Reachable.run_of {s : Srv} (h : Reachable s) :
    ∀ evs : List Ev, Reachable (run s evs) := by
  intro evs
  induction evs generalizing s with
  | nil => exact h
  | cons e t ih => exact ih (Reachable.step e h)

/-! ## C5: lobby-code collisions -/

/-- C5 counterexample: `createLobby` performs no uniqueness retry — a
second creation drawing the code of a live lobby overwrites the
existing registry entry (alice's lobby is gone, replaced by bob's), so
"never overwrites an existing lobby's registry entry" is false. -/
theorem C5_code_collision_counterexample :
    Reachable c5pre ∧
    lookupA c5pre.lobbies "ABCDEF" =
      some ⟨"ABCDEF", "alice", [⟨"alice", true, true⟩], false⟩ ∧
    Reachable (createLobby c5pre "bob" "ABCDEF") ∧
    lookupA (createLobby c5pre "bob" "ABCDEF").lobbies "ABCDEF" =
      some ⟨"ABCDEF", "bob", [⟨"bob", true, true⟩], false⟩ ∧
    (createLobby c5pre "bob" "ABCDEF").lobbies.length = 1 :=
  ⟨Reachable.run_of Reachable.start _, by decide,
   Reachable.step (Ev.createLobby "bob" "ABCDEF") (Reachable.run_of Reachable.start _),
   by decide, by decide⟩

/-- C5 (amended): `createLobby` with a valid username stores the new
lobby under the generated code unconditionally — on a collision with a
live lobby the existing registry entry is overwritten (there is no
retry and no failure). -/
theorem C5_unconditional_insert_amended (s : Srv) (u c : String)
    (h : 2 ≤ u.length) :
    lookupA (createLobby s u c).lobbies c =
      some ⟨c, u, [⟨u, true, true⟩], false⟩ := by
  rw [createLobby, if_neg (by omega)]
  simp [lookupA_setA]

/-- Witness for C5's amended theorem at a concrete input. -/
theorem C5_unconditional_insert_amended_witness :
    lookupA (createLobby Srv.start "alice" "ABCDEF").lobbies "ABCDEF" =
      some ⟨"ABCDEF", "alice", [⟨"alice", true, true⟩], false⟩ :=
  C5_unconditional_insert_amended Srv.start "alice" "ABCDEF" (by decide)

/-! ## C9: start-game with an insufficient image pool -/

/-- C9: when the host of a lobby with at least two participants sends
`start-game` while fewer than 3 images are loaded, the sender gets a
unicast error, the lobby map (hence `gameStarted`) and the game-state
map are unchanged. -/
theorem C9_insufficient_images_rejected (s : Srv) (c u : String) (n : Nat)
    (l : Lobby) (hl : lookupA s.lobbies c = some l) (hh : l.host = u)
    (hp : 2 ≤ l.participants.length) (hn : n < 3) :
    (startGame s c u n).lobbies = s.lobbies ∧
    (startGame s c u n).gameStates = s.gameStates ∧
    lookupA (startGame s c u n).lobbies c = some l ∧
    (startGame s c u n).log = s.log ++ [Emit.errorTo u imgMsg] := by
  simp only [startGame, hl]
  rw [if_pos ⟨hh, hp⟩, if_pos hn]
  exact ⟨rfl, rfl, hl, rfl⟩

/-- Witness for C9 at a concrete reachable state. -/
theorem C9_insufficient_images_rejected_witness :
    (startGame c9pre "AAAAAA" "alice" 2).lobbies = c9pre.lobbies ∧
    (startGame c9pre "AAAAAA" "alice" 2).gameStates = c9pre.gameStates ∧
    lookupA (startGame c9pre "AAAAAA" "alice" 2).lobbies "AAAAAA" =
      some ⟨"AAAAAA", "alice",
        [⟨"alice", true, true⟩, ⟨"bob", false, true⟩], false⟩ ∧
    (startGame c9pre "AAAAAA" "alice" 2).log =
      c9pre.log ++ [Emit.errorTo "alice" imgMsg] :=
  C9_insufficient_images_rejected c9pre "AAAAAA" "alice" 2
    ⟨"AAAAAA", "alice", [⟨"alice", true, true⟩, ⟨"bob", false, true⟩], false⟩
    (by decide) (by decide) (by decide) (by decide)

/-! ## The maximum scan of calculateResults -/

theorem findMajority_majStep (t : List (String × Nat)) :
    findMajority t = t.foldl majStep (0, none) := rfl

theorem foldl_majStep_stay :
    ∀ (t : List (String × Nat)) (mx : Nat) (mi : Option String),
      maxCount t ≤ mx → t.foldl majStep (mx, mi) = (mx, mi) := by
  intro t
  induction t with
  | nil => intro mx mi _; rfl
  | cons e t ih =>
    intro mx mi h
    rw [maxCount] at h
    have he : e.2 ≤ mx := le_trans (le_max_left _ _) h
    have ht : maxCount t ≤ mx := le_trans (le_max_right _ _) h
    have hstep : majStep (mx, mi) e = (mx, mi) := by
      simp [majStep]
      omega
    rw [List.foldl_cons, hstep]
    exact ih mx mi ht

theorem foldl_majStep_first :
    ∀ (t : List (String × Nat)) (mx : Nat) (mi : Option String),
      mx < maxCount t →
      t.foldl majStep (mx, mi) =
        (maxCount t,
         (t.find? (fun e => decide (maxCount t ≤ e.2))).map Prod.fst) := by
  intro t
  induction t with
  | nil =>
    intro mx mi h
    rw [maxCount] at h
    omega
  | cons e t ih =>
    intro mx mi h
    rw [List.foldl_cons]
    by_cases hc : e.2 > mx
    · have hstep : majStep (mx, mi) e = (e.2, some e.1) := by
        simp [majStep]
        omega
      rw [hstep]
      by_cases h2 : maxCount t ≤ e.2
      · have hmax : maxCount (e :: t) = e.2 := by
          rw [maxCount]; exact max_eq_left h2
        rw [hmax, foldl_majStep_stay t e.2 (some e.1) h2,
            List.find?_cons_of_pos _ (by simp)]
        rfl
      · push_neg at h2
        have hmax : maxCount (e :: t) = maxCount t := by
          rw [maxCount]; exact max_eq_right (le_of_lt h2)
        rw [hmax, ih e.2 (some e.1) h2,
            List.find?_cons_of_neg _ (by simp; omega)]
    · have hstep : majStep (mx, mi) e = (mx, mi) := by
        simp [majStep]
        omega
      rw [hstep]
      have h2 : mx < maxCount t := by
        rw [maxCount] at h
        rcases lt_max_iff.mp h with h' | h'
        · omega
        · exact h'
      have hmax : maxCount (e :: t) = maxCount t := by
        rw [maxCount]; exact max_eq_right (by omega)
      rw [hmax, ih mx mi h2,
          List.find?_cons_of_neg _ (by simp; omega)]

theorem maxCount_attained :
    ∀ t : List (String × Nat), t ≠ [] → ∃ e ∈ t, maxCount t ≤ e.2 := by
  intro t
  induction t with
  | nil => intro h; exact absurd rfl h
  | cons e t ih =>
    intro _
    by_cases h2 : maxCount t ≤ e.2
    · exact ⟨e, List.mem_cons_self _ _, by rw [maxCount, max_eq_left h2]⟩
    · push_neg at h2
      have ht : t ≠ [] := by
        intro hteq
        subst hteq
        rw [maxCount] at h2
        omega
      rcases ih ht with ⟨x, hx, hmx⟩
      refine ⟨x, List.mem_cons_of_mem _ hx, ?_⟩
      rw [maxCount, max_eq_right (le_of_lt h2)]
      exact hmx

/-- With at least one counted vote, the majority of a category is the
first entry of the tally (in tally order) attaining the maximal
count — strictly-highest wins, ties go to the first encountered. -/
theorem majorityFor_firstMax (t : List (String × Nat)) (imgs : List String)
    (h : 0 < maxCount t) : majorityFor t imgs = firstMax t := by
  have ht : t ≠ [] := by
    intro he
    subst he
    rw [maxCount] at h
    omega
  have h2 : (findMajority t).2 = firstMax t := by
    rw [findMajority_majStep, foldl_majStep_first t 0 none h]
    rfl
  rcases maxCount_attained t ht with ⟨x, hx, hmx⟩
  have hfind : (t.find? (fun e => decide (maxCount t ≤ e.2))).isSome := by
    rw [List.find?_isSome]
    exact ⟨x, hx, by simpa using hmx⟩
  have hsome : (firstMax t).isSome := by
    rw [firstMax]
    rcases Option.isSome_iff_exists.mp hfind with ⟨y, hy⟩
    rw [hy]
    rfl
  rcases Option.isSome_iff_exists.mp hsome with ⟨i, hi⟩
  rw [majorityFor, h2, hi]

/-! ## Handlers that leave the lobby registry untouched -/

theorem lobbies_startTimer (s : Srv) (c : String) (secs : Int) :
    (startTimer s c secs).lobbies = s.lobbies := by
  unfold startTimer
  cases h : lookupA s.gameStates c <;> simp only [h]

theorem lobbies_endGame (s : Srv) (c : String) :
    (endGame s c).lobbies = s.lobbies := by
  unfold endGame
  cases h : lookupA s.gameStates c <;> simp only [h]

theorem lobbies_castVote (s : Srv) (c u : String) (v : VoteRec) :
    (castVote s c u v).lobbies = s.lobbies := by
  unfold castVote
  cases h : lookupA s.gameStates c
  · simp only [h]
  · simp only [h]
    split <;> rfl

theorem lobbies_restartGame (s : Srv) (c u : String) (n : Nat) :
    (restartGame s c u n).lobbies = s.lobbies := by
  unfold restartGame
  cases h1 : lookupA s.lobbies c <;> cases h2 : lookupA s.gameStates c <;>
    simp only [h1, h2]
  split
  · split <;> rfl
  · rfl

theorem lobbies_startDiscussionPhase (s : Srv) (c : String)
    (imgs : List String) (n : Nat) :
    (startDiscussionPhase s c imgs n).lobbies = s.lobbies := by
  unfold startDiscussionPhase
  cases h1 : lookupA s.gameStates c <;> cases h2 : lookupA s.lobbies c <;>
    simp only [h1, h2]
  split
  · exact lobbies_endGame s c
  · split
    · exact lobbies_endGame s c
    · split
      · exact lobbies_endGame s c
      · rw [lobbies_startTimer]

theorem lobbies_startVotingPhase (s : Srv) (c : String) :
    (startVotingPhase s c).lobbies = s.lobbies := by
  unfold startVotingPhase
  cases h : lookupA s.gameStates c
  · simp only [h]
  · simp only [h]
    rw [lobbies_startTimer]

theorem lobbies_calculateResults (s : Srv) (c : String) :
    (calculateResults s c).lobbies = s.lobbies := by
  unfold calculateResults
  cases h1 : lookupA s.gameStates c <;> cases h2 : lookupA s.lobbies c <;>
    simp only [h1, h2]

theorem lobbies_showScoreboard (s : Srv) (c : String) :
    (showScoreboard s c).lobbies = s.lobbies := by
  unfold showScoreboard
  cases h : lookupA s.gameStates c <;> simp only [h]

theorem lobbies_scoreboardAdvance (s : Srv) (c : String) :
    (scoreboardAdvance s c).lobbies = s.lobbies := by
  unfold scoreboardAdvance
  cases h : lookupA s.gameStates c
  · simp only [h]
  · simp only [h]
    split
    · rw [lobbies_endGame]
    · rfl

theorem lobbies_timerTick (s : Srv) (id : Nat) :
    (timerTick s id).lobbies = s.lobbies := by
  unfold timerTick
  cases h : s.liveTimers.find? (fun e => e.1 = id) <;> simp only [h]

theorem lobbies_timerExpire (s : Srv) (id : Nat) :
    (timerExpire s id).lobbies = s.lobbies := by
  unfold timerExpire
  cases h : s.liveTimers.find? (fun e => e.1 = id) <;> simp only [h]

/-! ## Preservation of the host-uniqueness invariant -/

theorem hostUnique_setA {m : List (String × Lobby)} {c : String} {l : Lobby}
    (hm : lobbiesHostUnique m)
    (hl : (l.participants.countP (fun p => p.isHost)) ≤ 1) :
    lobbiesHostUnique (setA m c l) := by
  intro e he
  rcases mem_setA he with rfl | he'
  · exact hl
  · exact hm e he'

theorem hostUnique_eraseA {m : List (String × Lobby)} {c : String}
    (hm : lobbiesHostUnique m) : lobbiesHostUnique (eraseA m c) :=
  fun e he => hm e (mem_eraseA he)

theorem atMostOneHost_createLobby (s : Srv) (u c : String)
    (h : atMostOneHost s) : atMostOneHost (createLobby s u c) := by
  unfold createLobby
  split
  · exact h
  · exact hostUnique_setA h (by simp [List.countP_cons])

theorem atMostOneHost_joinLobby (s : Srv) (c u : String)
    (h : atMostOneHost s) : atMostOneHost (joinLobby s c u) := by
  unfold joinLobby
  split
  · exact h
  · cases hl : lookupA s.lobbies c
    · simp only [hl]; exact h
    · rename_i l
      have hcl := h (c, l) (lookupA_mem hl)
      simp only [hl]
      split
      · exact hostUnique_setA h
          (by simpa [countP_markConnected] using hcl)
      · cases hg : lookupA s.gameStates c
        · simp only [hg]
          exact hostUnique_setA h
            (by simpa [List.countP_append, List.countP_cons] using hcl)
        · simp only [hg]
          exact hostUnique_setA h
            (by simpa [List.countP_append, List.countP_cons] using hcl)

theorem atMostOneHost_joinLobbySocket (s : Srv) (c u : String)
    (h : atMostOneHost s) : atMostOneHost (joinLobbySocket s c u) := by
  unfold joinLobbySocket
  cases hl : lookupA s.lobbies c
  · simp only [hl]; exact h
  · rename_i l
    have hcl := h (c, l) (lookupA_mem hl)
    simp only [hl]
    exact hostUnique_setA h (by simpa [countP_markConnected] using hcl)

theorem atMostOneHost_leaveLobby (s : Srv) (c u : String) (now : Nat)
    (h : atMostOneHost s) : atMostOneHost (leaveLobby s c u now) := by
  unfold leaveLobby
  cases hl : lookupA s.lobbies c
  · simp only [hl]; exact h
  · rename_i l
    have hcl := h (c, l) (lookupA_mem hl)
    simp only [hl]
    split
    · apply hostUnique_setA h
      by_cases hp : hasParticipant l.participants u
      · simpa [hp, countP_markDisconnected] using hcl
      · simpa [hp] using hcl
    · split
      · exact hostUnique_eraseA h
      · exact hostUnique_setA h
          (by simpa using Nat.le_trans (countP_removeParticipant_le _ _) hcl)

theorem atMostOneHost_startGame (s : Srv) (c u : String) (n : Nat)
    (h : atMostOneHost s) : atMostOneHost (startGame s c u n) := by
  unfold startGame
  cases hl : lookupA s.lobbies c
  · simp only [hl]; exact h
  · rename_i l
    have hcl := h (c, l) (lookupA_mem hl)
    simp only [hl]
    split
    · split
      · exact h
      · exact hostUnique_setA h (by simpa using hcl)
    · exact h

theorem atMostOneHost_disconnectSocket (s : Srv) (c u : String) (now : Nat)
    (h : atMostOneHost s) : atMostOneHost (disconnectSocket s c u now) := by
  unfold disconnectSocket
  cases hl : lookupA s.lobbies c
  · simp only [hl]; exact h
  · rename_i l
    have hcl := h (c, l) (lookupA_mem hl)
    simp only [hl]
    split
    · split
      · exact hostUnique_setA h
          (by simpa [countP_markDisconnected] using hcl)
      · split
        · exact hostUnique_eraseA h
        · exact hostUnique_setA h
            (by simpa using Nat.le_trans (countP_removeParticipant_le _ _) hcl)
    · exact h

theorem atMostOneHost_sweepOne (now : Nat) (s : Srv) (e : String × DiscInfo)
    (h : atMostOneHost s) : atMostOneHost (sweepOne now s e) := by
  unfold sweepOne
  split
  · cases hl : lookupA s.lobbies e.2.code
    · simp only [hl]; exact h
    · rename_i l
      have hcl := h (e.2.code, l) (lookupA_mem hl)
      simp only [hl]
      exact hostUnique_setA h
        (by simpa using Nat.le_trans (countP_removeParticipant_le _ _) hcl)
  · exact h

theorem atMostOneHost_cleanupSweep (s : Srv) (now : Nat)
    (h : atMostOneHost s) : atMostOneHost (cleanupSweep s now) := by
  unfold cleanupSweep
  exact foldl_inv (fun a b ha => atMostOneHost_sweepOne now a b ha) _ s h

theorem atMostOneHost_step (s : Srv) (e : Ev) (h : atMostOneHost s) :
    atMostOneHost (step s e) := by
  cases e with
  | createLobby u c => exact atMostOneHost_createLobby s u c h
  | joinLobby c u => exact atMostOneHost_joinLobby s c u h
  | joinLobbySocket c u => exact atMostOneHost_joinLobbySocket s c u h
  | leaveLobby c u now => exact atMostOneHost_leaveLobby s c u now h
  | startGame c u n => exact atMostOneHost_startGame s c u n h
  | castVote c u v =>
    show lobbiesHostUnique (castVote s c u v).lobbies
    rw [lobbies_castVote]; exact h
  | restartGame c u n =>
    show lobbiesHostUnique (restartGame s c u n).lobbies
    rw [lobbies_restartGame]; exact h
  | disconnectSocket c u now => exact atMostOneHost_disconnectSocket s c u now h
  | sweep now => exact atMostOneHost_cleanupSweep s now h
  | cbDiscussion c imgs n =>
    show lobbiesHostUnique (startDiscussionPhase s c imgs n).lobbies
    rw [lobbies_startDiscussionPhase]; exact h
  | cbVoting c =>
    show lobbiesHostUnique (startVotingPhase s c).lobbies
    rw [lobbies_startVotingPhase]; exact h
  | cbResults c =>
    show lobbiesHostUnique (calculateResults s c).lobbies
    rw [lobbies_calculateResults]; exact h
  | cbScoreboard c =>
    show lobbiesHostUnique (showScoreboard s c).lobbies
    rw [lobbies_showScoreboard]; exact h
  | cbScoreboardInner c =>
    show lobbiesHostUnique (scoreboardAdvance s c).lobbies
    rw [lobbies_scoreboardAdvance]; exact h
  | tick id =>
    show lobbiesHostUnique (timerTick s id).lobbies
    rw [lobbies_timerTick]; exact h
  | expire id =>
    show lobbiesHostUnique (timerExpire s id).lobbies
    rw [lobbies_timerExpire]; exact h

/-! ## Preservation of host membership by every non-sweep operation -/

theorem hostMember_setA {m : List (String × Lobby)} {c : String} {l : Lobby}
    (hm : lobbiesHostMember m)
    (hl : l.host ∈ l.participants.map Participant.username) :
    lobbiesHostMember (setA m c l) := by
  intro e he
  rcases mem_setA he with rfl | he'
  · exact hl
  · exact hm e he'

theorem hostMember_eraseA {m : List (String × Lobby)} {c : String}
    (hm : lobbiesHostMember m) : lobbiesHostMember (eraseA m c) :=
  fun e he => hm e (mem_eraseA he)

theorem hostOnRoster_createLobby (s : Srv) (u c : String)
    (h : hostOnRoster s) : hostOnRoster (createLobby s u c) := by
  unfold createLobby
  split
  · exact h
  · exact hostMember_setA h (by simp)

theorem hostOnRoster_joinLobby (s : Srv) (c u : String)
    (h : hostOnRoster s) : hostOnRoster (joinLobby s c u) := by
  unfold joinLobby
  split
  · exact h
  · cases hl : lookupA s.lobbies c
    · simp only [hl]; exact h
    · rename_i l
      have hcl := h (c, l) (lookupA_mem hl)
      simp only [hl]
      split
      · exact hostMember_setA h (by simpa [usernames_markConnected] using hcl)
      · cases hg : lookupA s.gameStates c
        · simp only [hg]
          exact hostMember_setA h (by simp; exact Or.inl (by simpa using hcl))
        · simp only [hg]
          exact hostMember_setA h (by simp; exact Or.inl (by simpa using hcl))

theorem hostOnRoster_joinLobbySocket (s : Srv) (c u : String)
    (h : hostOnRoster s) : hostOnRoster (joinLobbySocket s c u) := by
  unfold joinLobbySocket
  cases hl : lookupA s.lobbies c
  · simp only [hl]; exact h
  · rename_i l
    have hcl := h (c, l) (lookupA_mem hl)
    simp only [hl]
    exact hostMember_setA h (by simpa [usernames_markConnected] using hcl)

theorem hostOnRoster_leaveLobby (s : Srv) (c u : String) (now : Nat)
    (h : hostOnRoster s) : hostOnRoster (leaveLobby s c u now) := by
  unfold leaveLobby
  cases hl : lookupA s.lobbies c
  · simp only [hl]; exact h
  · rename_i l
    have hcl := h (c, l) (lookupA_mem hl)
    simp only [hl]
    split
    · apply hostMember_setA h
      by_cases hp : hasParticipant l.participants u
      · simpa [hp, usernames_markDisconnected] using hcl
      · simpa [hp] using hcl
    · split
      · exact hostMember_eraseA h
      · rename_i hno
        have hne : l.host ≠ u := by
          intro heq
          exact hno (Or.inr heq.symm)
        exact hostMember_setA h
          (by simpa using mem_usernames_removeParticipant hne (by simpa using hcl))

theorem hostOnRoster_startGame (s : Srv) (c u : String) (n : Nat)
    (h : hostOnRoster s) : hostOnRoster (startGame s c u n) := by
  unfold startGame
  cases hl : lookupA s.lobbies c
  · simp only [hl]; exact h
  · rename_i l
    have hcl := h (c, l) (lookupA_mem hl)
    simp only [hl]
    split
    · split
      · exact h
      · exact hostMember_setA h (by simpa using hcl)
    · exact h

theorem hostOnRoster_disconnectSocket (s : Srv) (c u : String) (now : Nat)
    (h : hostOnRoster s) : hostOnRoster (disconnectSocket s c u now) := by
  unfold disconnectSocket
  cases hl : lookupA s.lobbies c
  · simp only [hl]; exact h
  · rename_i l
    have hcl := h (c, l) (lookupA_mem hl)
    simp only [hl]
    split
    · split
      · exact hostMember_setA h
          (by simpa [usernames_markDisconnected] using hcl)
      · split
        · exact hostMember_eraseA h
        · rename_i hno
          have hne : l.host ≠ u := by
            intro heq
            exact hno (Or.inr heq.symm)
          exact hostMember_setA h
            (by simpa using mem_usernames_removeParticipant hne (by simpa using hcl))
    · exact h

/-! ## C1: tally order and tie-breaking in calculateResults -/

/-- C1 counterexample: in a reachable round, bob's complete vote is
received before alice's (`c1votesList` is the game's stored vote map, in
first-vote-received order), yet `calculateResults` broadcasts shoot
majority `I1` — alice's pick, she being first on the roster — while the
first image encountered in first-vote-received order is bob's `I2`, the
two counts being tied.  So the majority is NOT the first image
encountered in first-vote-received order: the tally runs in
participant-roster order. -/
theorem C1_roster_order_counterexample :
    Reachable c1fin ∧
    c1fin.log.getLast? = some (Emit.roundResults "AAAAAA"
      ⟨some "I1", some "I2", some "I3"⟩ ["alice"]) ∧
    (lookupA c1mid.lobbies "AAAAAA").map Lobby.participants = some c1roster ∧
    (lookupA c1mid.gameStates "AAAAAA").map GameState.votes = some c1votesList ∧
    voteOrderMajority c1roster c1votesList (fun v => v.shoot)
      ["I1", "I2", "I3"] = some "I2" ∧
    lookupD (collectVotes c1roster c1votesList).1.shoot "I1" 0 =
      lookupD (collectVotes c1roster c1votesList).1.shoot "I2" 0 ∧
    (some "I1" : Option String) ≠ some "I2" :=
  ⟨Reachable.step (Ev.cbResults "AAAAAA")
      (Reachable.run_of Reachable.start c1trace),
   by decide, by decide, by decide, by decide, by decide, by decide⟩

/-- C1 (amended): `calculateResults` tallies each category by iterating
`lobby.participants` in roster order, and whenever a category received
at least one counted vote the majority choice is the first entry of that
roster-order tally attaining the maximal count (strictly highest wins,
ties go to the image first encountered in roster order — not
first-vote-received order).  Replaying the same roster and vote map
reproduces the same choices, the computation being a pure function. -/
theorem C1_tiebreak_amended (l : Lobby) (g : GameState) :
    (0 < maxCount (collectVotes l.participants g.votes).1.shoot →
      (calculateResultsCore l g).2.1.shoot =
        firstMax ((collectVotes l.participants g.votes).1.shoot)) ∧
    (0 < maxCount (collectVotes l.participants g.votes).1.shag →
      (calculateResultsCore l g).2.1.shag =
        firstMax ((collectVotes l.participants g.votes).1.shag)) ∧
    (0 < maxCount (collectVotes l.participants g.votes).1.marry →
      (calculateResultsCore l g).2.1.marry =
        firstMax ((collectVotes l.participants g.votes).1.marry)) :=
  ⟨fun h => majorityFor_firstMax _ _ h,
   fun h => majorityFor_firstMax _ _ h,
   fun h => majorityFor_firstMax _ _ h⟩

/-- Witness for C1's amended theorem at the concrete round of the
counterexample trace. -/
theorem C1_tiebreak_amended_witness :
    (calculateResultsCore ⟨"AAAAAA", "alice", c1roster, true⟩
        ⟨"voting", 1, 30, ["I1", "I2", "I3"], c1votesList,
         [("alice", 0), ("bob", 0)], 0, none⟩).2.1.shoot =
      firstMax ((collectVotes c1roster c1votesList).1.shoot) :=
  (C1_tiebreak_amended ⟨"AAAAAA", "alice", c1roster, true⟩
      ⟨"voting", 1, 30, ["I1", "I2", "I3"], c1votesList,
       [("alice", 0), ("bob", 0)], 0, none⟩).1 (by decide)

/-! ## C2: host uniqueness and host membership -/

/-- C2 counterexample: the host alice is marked disconnected mid-game
and recorded in `disconnectedPlayers`; the periodic cleanup sweep then
removes her from the roster WITHOUT deleting the lobby — a reachable
state in which the lobby exists but its host is not a member of its
participants. -/
theorem C2_sweep_removes_host_counterexample :
    Reachable c2fin ∧
    lookupA c2fin.lobbies "AAAAAA" =
      some ⟨"AAAAAA", "alice", [⟨"bob", false, true⟩], true⟩ ∧
    ¬ hostOnRoster c2fin :=
  ⟨Reachable.run_of Reachable.start c2trace, by decide, by decide⟩

/-- C2 (amended): in every reachable state every registered lobby has at
most one participant with `isHost = true`; and every operation EXCEPT
the periodic grace-period sweep preserves "the host is on the roster of
every registered lobby" (the sweep may remove a long-disconnected host
from the roster without deleting the lobby). -/
theorem C2_host_invariants_amended :
    (∀ s, Reachable s → atMostOneHost s) ∧
    (∀ s e, (∀ now, e ≠ Ev.sweep now) → hostOnRoster s →
      hostOnRoster (step s e)) := by
  constructor
  · intro s hr
    induction hr with
    | start => intro e he; simp [Srv.start] at he
    | step e _ ih => exact atMostOneHost_step _ e ih
  · intro s e hne h
    cases e with
    | createLobby u c => exact hostOnRoster_createLobby s u c h
    | joinLobby c u => exact hostOnRoster_joinLobby s c u h
    | joinLobbySocket c u => exact hostOnRoster_joinLobbySocket s c u h
    | leaveLobby c u now => exact hostOnRoster_leaveLobby s c u now h
    | startGame c u n => exact hostOnRoster_startGame s c u n h
    | castVote c u v =>
      show lobbiesHostMember (castVote s c u v).lobbies
      rw [lobbies_castVote]; exact h
    | restartGame c u n =>
      show lobbiesHostMember (restartGame s c u n).lobbies
      rw [lobbies_restartGame]; exact h
    | disconnectSocket c u now => exact hostOnRoster_disconnectSocket s c u now h
    | sweep now => exact absurd rfl (hne now)
    | cbDiscussion c imgs n =>
      show lobbiesHostMember (startDiscussionPhase s c imgs n).lobbies
      rw [lobbies_startDiscussionPhase]; exact h
    | cbVoting c =>
      show lobbiesHostMember (startVotingPhase s c).lobbies
      rw [lobbies_startVotingPhase]; exact h
    | cbResults c =>
      show lobbiesHostMember (calculateResults s c).lobbies
      rw [lobbies_calculateResults]; exact h
    | cbScoreboard c =>
      show lobbiesHostMember (showScoreboard s c).lobbies
      rw [lobbies_showScoreboard]; exact h
    | cbScoreboardInner c =>
      show lobbiesHostMember (scoreboardAdvance s c).lobbies
      rw [lobbies_scoreboardAdvance]; exact h
    | tick id =>
      show lobbiesHostMember (timerTick s id).lobbies
      rw [lobbies_timerTick]; exact h
    | expire id =>
      show lobbiesHostMember (timerExpire s id).lobbies
      rw [lobbies_timerExpire]; exact h

/-- Witness for C2's amended theorem at a concrete reachable state and a
concrete non-sweep event. -/
theorem C2_host_invariants_amended_witness :
    atMostOneHost c2wit ∧
    hostOnRoster (step c2wit (Ev.joinLobbySocket "AAAAAA" "bob")) :=
  ⟨C2_host_invariants_amended.1 c2wit
      (Reachable.run_of Reachable.start _),
   C2_host_invariants_amended.2 c2wit (Ev.joinLobbySocket "AAAAAA" "bob")
      (fun now h => Ev.noConfusion h) (by decide)⟩

/-! ## C3: one live timer per game -/

/-- C3 (code bug): a second `start-game` while round 1's discussion
interval (identifier 0) is running replaces the registry's game state
with a fresh one whose `timerInterval` is `null`, WITHOUT clearing the
replaced game's interval: identifier 0 stays live although no game state
owns it, and as soon as the new game's discussion installs its own
interval, TWO intervals are live for the same game — contradicting the
claim that start-game cancels the previous timer before discarding the
game state that owns it. -/
theorem C3_double_start_two_timers :
    Reachable c3mid ∧
    c3mid.liveTimers = [(0, "AAAAAA")] ∧
    (lookupA c3mid.gameStates "AAAAAA").map GameState.timerInterval =
      some none ∧
    Reachable c3next ∧
    c3next.liveTimers = [(0, "AAAAAA"), (1, "AAAAAA")] :=
  ⟨Reachable.run_of Reachable.start c3trace, by decide, by decide,
   Reachable.step (Ev.cbDiscussion "AAAAAA" ["I1", "I2", "I3"] 5)
      (Reachable.run_of Reachable.start c3trace),
   by decide⟩

/-! ## C4: teardown and stale timer callbacks -/

/-- C4 (code bug): after a second `start-game` orphans the voting
interval, its expiry drives the replacement game into `waiting` while
the replacement game's discussion interval (identifier 2) is still
live; the host's `leave-lobby` then tears the session down (both
registry entries deleted) WITHOUT clearing any interval, and the next
tick of the still-live interval 2 broadcasts `game-timer` to the
deleted session — the stale tick is not a no-op. -/
theorem C4_orphan_timer_after_teardown :
    Reachable c4fin ∧
    lookupA c4fin.lobbies "AAAAAA" = none ∧
    lookupA c4fin.gameStates "AAAAAA" = none ∧
    c4fin.liveTimers = [(2, "AAAAAA")] ∧
    (timerTick c4fin 2).log = c4fin.log ++ [Emit.timerEv "AAAAAA"] :=
  ⟨Reachable.run_of Reachable.start c4trace, by decide, by decide,
   by decide, by decide⟩

/-! ## C6: restart-game preconditions -/

/-- C6 counterexample: in a reachable state whose lobby has a SINGLE
participant (the host), the host's `restart-game` is accepted: the game
state is reset to round 1 / `discussion` and `game-started` is
broadcast — so "at least 2 participants" is not among the enforced
preconditions, contradicting "if any of these preconditions fails the
request is rejected and no game state changes". -/
theorem C6_restart_single_participant_counterexample :
    Reachable c6pre ∧
    (lookupA c6pre.lobbies "AAAAAA").map (fun l => l.participants.length) =
      some 1 ∧
    (lookupA c6pre.gameStates "AAAAAA").map
      (fun g => (g.phase, g.roundNumber)) = some ("waiting", 2) ∧
    Reachable c6post ∧
    (lookupA c6post.gameStates "AAAAAA").map
      (fun g => (g.phase, g.roundNumber)) = some ("discussion", 1) ∧
    c6post.log = c6pre.log ++ [Emit.ev "game-started" "AAAAAA"] :=
  ⟨Reachable.run_of Reachable.start c6trace, by decide, by decide,
   Reachable.step (Ev.restartGame "AAAAAA" "alice" 5)
      (Reachable.run_of Reachable.start c6trace),
   by decide, by decide⟩

/-- C6 (amended): `restart-game` is accepted — resetting the game to
round 1, clearing votes, zeroing the CURRENT participants' scores and
broadcasting `game-started` — exactly when the lobby and a game state
exist, the sender is the host, and the pool has at least 3 images; the
participant count is NOT checked.  When only the image check fails the
sender gets a unicast error and the game-state map is unchanged; when
the lobby or game is missing or the sender is not the host, the request
is ignored with no state change at all. -/
theorem C6_restart_preconditions_amended (s : Srv) (c u : String) (n : Nat) :
    (∀ l g, lookupA s.lobbies c = some l → lookupA s.gameStates c = some g →
      u = l.host → 3 ≤ n →
      lookupA (restartGame s c u n).gameStates c =
        some { g with phase := "discussion", roundNumber := 1,
                      currentImages := [], votes := [], timer := 60,
                      scores := zeroScores l.participants g.scores } ∧
      (restartGame s c u n).log = s.log ++ [Emit.ev "game-started" c]) ∧
    (∀ l g, lookupA s.lobbies c = some l → lookupA s.gameStates c = some g →
      u = l.host → n < 3 →
      (restartGame s c u n).gameStates = s.gameStates ∧
      (restartGame s c u n).log = s.log ++ [Emit.errorTo u imgMsg]) ∧
    (∀ l, lookupA s.lobbies c = some l → lookupA s.gameStates c ≠ none →
      u ≠ l.host → restartGame s c u n = s) ∧
    (lookupA s.lobbies c = none ∨ lookupA s.gameStates c = none →
      restartGame s c u n = s) := by
  refine ⟨?_, ?_, ?_, ?_⟩
  · intro l g hl hg hh hn
    simp only [restartGame, hl, hg]
    rw [if_pos hh, if_neg (by omega)]
    exact ⟨by simp [lookupA_setA], rfl⟩
  · intro l g hl hg hh hn
    simp only [restartGame, hl, hg]
    rw [if_pos hh, if_pos hn]
    exact ⟨rfl, rfl⟩
  · intro l hl hg hh
    rcases Option.ne_none_iff_exists.mp hg with ⟨g, hg'⟩
    simp only [restartGame, hl, ← hg']
    rw [if_neg hh]
  · intro h
    rcases h with h | h
    · simp only [restartGame, h]
    · simp only [restartGame, h]
      cases lookupA s.lobbies c <;> rfl

/-- Witness for C6's amended theorem: the accepting branch at the
concrete single-participant state. -/
theorem C6_restart_preconditions_amended_witness :
    lookupA (restartGame c6pre "AAAAAA" "alice" 5).gameStates "AAAAAA" =
      some { c6game with phase := "discussion", roundNumber := 1,
                         currentImages := [], votes := [], timer := 60,
                         scores := zeroScores c6lobby.participants c6game.scores } ∧
    (restartGame c6pre "AAAAAA" "alice" 5).log =
      c6pre.log ++ [Emit.ev "game-started" "AAAAAA"] :=
  (C6_restart_preconditions_amended c6pre "AAAAAA" "alice" 5).1
    c6lobby c6game (by decide) (by decide) (by decide) (by decide)

/-! ## C7: when and how a game ends -/

/-- C7 counterexample: a reachable trace in which the game ends (the
pool shrank below 3 at discussion entry, `game-ended` is the last
broadcast) but the game state's `phase` field is still `waiting` — no
code path ever assigns the phase value `ended`, so "its phase field
becomes `ended`" is false. -/
theorem C7_phase_never_ended_counterexample :
    Reachable c7fin ∧
    c7fin.log.getLast? = some (Emit.ev "game-ended" "AAAAAA") ∧
    (lookupA c7fin.gameStates "AAAAAA").map GameState.phase = some "waiting" ∧
    (lookupA c7fin.gameStates "AAAAAA").map GameState.phase ≠ some "ended" :=
  ⟨Reachable.step (Ev.cbDiscussion "AAAAAA" [] 2)
      (Reachable.run_of Reachable.start c7trace),
   by decide, by decide, by decide⟩

/-- C7 (amended): `endGame` runs — broadcasting `game-ended` — exactly
when discussion entry finds fewer than 3 images or
`roundNumber > totalRounds`, or when the post-scoreboard increment
pushes `roundNumber` past `totalRounds`; otherwise the post-scoreboard
step enters `waiting`.  The phase field, however, never becomes
`ended`: on every ending path it keeps its previous value. -/
theorem C7_end_conditions_amended (s : Srv) (c : String) (imgs : List String)
    (n : Nat) (g : GameState) (l : Lobby)
    (hg : lookupA s.gameStates c = some g)
    (hl : lookupA s.lobbies c = some l) :
    ((n < 3 ∨ g.roundNumber > g.totalRounds) →
      (startDiscussionPhase s c imgs n).log =
        s.log ++ [Emit.ev "game-ended" c] ∧
      (lookupA (startDiscussionPhase s c imgs n).gameStates c).map
        GameState.phase = some g.phase) ∧
    (g.roundNumber + 1 > g.totalRounds →
      (scoreboardAdvance s c).log = s.log ++ [Emit.ev "game-ended" c] ∧
      (lookupA (scoreboardAdvance s c).gameStates c).map GameState.phase =
        some g.phase) ∧
    (g.roundNumber + 1 ≤ g.totalRounds →
      (lookupA (scoreboardAdvance s c).gameStates c).map GameState.phase =
        some "waiting" ∧
      (scoreboardAdvance s c).log =
        s.log ++ [Emit.ev "game-phase-update" c]) := by
  refine ⟨?_, ?_, ?_⟩
  · intro hcond
    simp only [startDiscussionPhase, hg, hl]
    rw [if_pos hcond]
    exact ⟨by simp [endGame, hg], by simp [endGame, hg]⟩
  · intro hrn
    simp only [scoreboardAdvance, hg]
    rw [if_pos hrn]
    exact ⟨by simp [endGame, lookupA_setA], by simp [endGame, lookupA_setA]⟩
  · intro hrn
    simp only [scoreboardAdvance, hg]
    rw [if_neg (by omega)]
    exact ⟨by simp [lookupA_setA], rfl⟩

/-- Witness for C7's amended theorem: the shrunk-pool ending at the
concrete waiting-gap state. -/
theorem C7_end_conditions_amended_witness :
    (startDiscussionPhase c7pre "AAAAAA" [] 2).log =
      c7pre.log ++ [Emit.ev "game-ended" "AAAAAA"] ∧
    (lookupA (startDiscussionPhase c7pre "AAAAAA" [] 2).gameStates
      "AAAAAA").map GameState.phase = some c7game.phase :=
  (C7_end_conditions_amended c7pre "AAAAAA" [] 2 c7game c7lobby
    (by decide) (by decide)).1 (Or.inl (by decide))

/-! ## Score arithmetic lemmas -/

theorem zeroScores_cons (p : Participant) (t : List Participant)
    (sc : List (String × Nat)) :
    zeroScores (p :: t) sc = zeroScores t (setA sc p.username 0) := rfl

theorem zeroScores_lookup :
    ∀ (ps : List Participant) (sc : List (String × Nat)) (x : String),
      lookupA (zeroScores ps sc) x = some 0 ∨
      lookupA (zeroScores ps sc) x = lookupA sc x := by
  intro ps
  induction ps with
  | nil => intro sc x; exact Or.inr rfl
  | cons p t ih =>
    intro sc x
    rw [zeroScores_cons]
    rcases ih (setA sc p.username 0) x with h | h
    · exact Or.inl h
    · rw [h, lookupA_setA]
      by_cases hx : p.username = x
      · rw [if_pos hx]; exact Or.inl rfl
      · rw [if_neg hx]; exact Or.inr rfl

theorem zeroScores_mem_zero :
    ∀ (ps : List Participant) (sc : List (String × Nat)) (p : Participant),
      p ∈ ps → lookupA (zeroScores ps sc) p.username = some 0 := by
  intro ps
  induction ps with
  | nil => intro sc p hp; simp at hp
  | cons q t ih =>
    intro sc p hp
    rw [zeroScores_cons]
    rcases List.mem_cons.mp hp with rfl | hp'
    · rcases zeroScores_lookup t (setA sc p.username 0) p.username with h | h
      · exact h
      · rw [h, lookupA_setA, if_pos rfl]
    · exact ih _ p hp'

theorem zeroScores_all_zero :
    ∀ (ps : List Participant) (sc : List (String × Nat)),
      (∀ e ∈ sc, e.2 = 0) → ∀ e ∈ zeroScores ps sc, e.2 = 0 := by
  intro ps
  induction ps with
  | nil => intro sc h; exact h
  | cons q t ih =>
    intro sc h
    rw [zeroScores_cons]
    apply ih
    intro e he
    rcases mem_setA he with rfl | he'
    · rfl
    · exact h e he'

theorem awardStep_mono (votes : List (String × VoteRec)) (mj : Majorities)
    (acc : List (String × Nat) × List String) (u x : String)
    (sc0 : List (String × Nat))
    (h : lookupD sc0 x 0 ≤ lookupD acc.1 x 0) :
    lookupD sc0 x 0 ≤ lookupD (awardStep votes mj acc u).1 x 0 := by
  unfold awardStep
  cases hv : lookupA votes u
  · simp only [hv]; exact h
  · rename_i v
    simp only [hv]
    split
    · unfold lookupD at h ⊢
      rw [lookupA_setA]
      by_cases hx : u = x
      · rw [if_pos hx, Option.getD_some]
        subst hx
        omega
      · rw [if_neg hx]; exact h
    · exact h

theorem awardPoints_mono (vv : List String) (votes : List (String × VoteRec))
    (mj : Majorities) (sc : List (String × Nat)) (x : String) :
    lookupD sc x 0 ≤ lookupD (awardPoints vv votes mj sc).1 x 0 := by
  unfold awardPoints
  exact foldl_inv
    (P := fun acc : List (String × Nat) × List String =>
      lookupD sc x 0 ≤ lookupD acc.1 x 0)
    (fun a b ha => awardStep_mono votes mj a b x sc ha) vv (sc, [])
    (Nat.le_refl _)

/-! ## C8: score lifecycle -/

/-- C8 counterexample: after a round in which carol scored a point she
is removed from the roster by the grace sweep; the host's restart is
accepted (`game-started` broadcast), yet carol's stale entry in the
score map still holds 1 — `restart-game` zeroes only the CURRENT
participants' entries, not every score recorded in the map. -/
theorem C8_stale_score_counterexample :
    Reachable c8pre ∧
    (lookupA c8pre.lobbies "AAAAAA").map
      (fun l => l.participants.map Participant.username) =
      some ["alice", "bob"] ∧
    (lookupA c8pre.gameStates "AAAAAA").map
      (fun g => lookupA g.scores "carol") = some (some 1) ∧
    Reachable c8post ∧
    c8post.log = c8pre.log ++ [Emit.ev "game-started" "AAAAAA"] ∧
    (lookupA c8post.gameStates "AAAAAA").map
      (fun g => lookupA g.scores "carol") = some (some 1) :=
  ⟨Reachable.run_of Reachable.start c8trace, by decide, by decide,
   Reachable.step (Ev.restartGame "AAAAAA" "alice" 5)
      (Reachable.run_of Reachable.start c8trace),
   by decide, by decide⟩

/-- C8 (amended): the score map `zeroScores ps []` built by `start-game`
has every recorded entry 0; `calculateResults` never decreases any
username's score (each winner gains exactly 1); and the
`zeroScores ps sc` pass of `restart-game` zeroes the entry of every
CURRENT participant — entries of players no longer on the roster keep
their old values, and a rejoin through the join endpoint after roster
removal resets that player's entry to 0 mid-game. -/
theorem C8_score_behavior_amended (l : Lobby) (g : GameState)
    (ps : List Participant) (sc : List (String × Nat)) (u : String) :
    (∀ e ∈ zeroScores ps [], e.2 = 0) ∧
    lookupD g.scores u 0 ≤ lookupD (calculateResultsCore l g).1.scores u 0 ∧
    (∀ p ∈ ps, lookupA (zeroScores ps sc) p.username = some 0) :=
  ⟨zeroScores_all_zero ps [] (by simp),
   awardPoints_mono _ g.votes _ g.scores u,
   fun p hp => zeroScores_mem_zero ps sc p hp⟩

/-- Witness for C8's amended theorem at concrete inputs. -/
theorem C8_score_behavior_amended_witness :
    lookupD c8game.scores "carol" 0 ≤
      lookupD (calculateResultsCore c8lobby c8game).1.scores "carol" 0 ∧
    lookupA (zeroScores c8lobby.participants [("carol", 5)]) "alice" =
      some 0 :=
  ⟨(C8_score_behavior_amended c8lobby c8game c8lobby.participants
      [("carol", 5)] "carol").2.1,
   (C8_score_behavior_amended c8lobby c8game c8lobby.participants
      [("carol", 5)] "alice").2.2 ⟨"alice", true, true⟩ (by decide)⟩

/-! ## C10: reconnection does not cancel the grace-period sweep -/

/-- C10: a reconnection through the join endpoint marks the returning
participant connected but leaves their `disconnectedPlayers` record in
place; once more than 5 minutes have passed since the ORIGINAL
disconnect timestamp, the periodic sweep therefore still removes the —
by now connected — participant from the lobby roster. -/
theorem C10_reconnect_does_not_cancel_sweep (s : Srv) (c u : String)
    (t0 now : Nat) (l : Lobby)
    (hc : c ≠ "") (hu : u ≠ "")
    (hl : lookupA s.lobbies c = some l)
    (hp : hasParticipant l.participants u = true)
    (hdp : s.disconnectedPlayers = [(u, ⟨c, t0⟩)])
    (ht : 300000 < now - t0) :
    lookupA (joinLobby s c u).disconnectedPlayers u = some ⟨c, t0⟩ ∧
    (∃ p ∈ markConnected l.participants u,
      p.username = u ∧ p.connected = true) ∧
    lookupA (joinLobby s c u).lobbies c =
      some { l with participants := markConnected l.participants u } ∧
    lookupA (cleanupSweep (joinLobby s c u) now).lobbies c =
      some { l with participants :=
                      removeParticipant (markConnected l.participants u) u } ∧
    hasParticipant
      (removeParticipant (markConnected l.participants u) u) u = false := by
  have hj : joinLobby s c u =
      { s with lobbies :=
          (setA s.lobbies c { l with participants := markConnected l.participants u }) } := by
    unfold joinLobby
    rw [if_neg (fun hor => hor.elim hc hu)]
    simp only [hl]
    rw [if_pos hp]
  refine ⟨?_, markConnected_mem_connected hp, ?_, ?_, ?_⟩
  · rw [hj]
    show lookupA s.disconnectedPlayers u = some ⟨c, t0⟩
    rw [hdp]
    simp [lookupA]
  · rw [hj]
    show lookupA (setA s.lobbies c _) c = _
    rw [lookupA_setA, if_pos rfl]
  · have hdp1 : (joinLobby s c u).disconnectedPlayers = [(u, ⟨c, t0⟩)] := by
      rw [hj]; exact hdp
    have hsweep : cleanupSweep (joinLobby s c u) now =
        sweepOne now (joinLobby s c u) (u, ⟨c, t0⟩) := by
      unfold cleanupSweep
      rw [hdp1]
      rfl
    rw [hsweep]
    unfold sweepOne
    rw [if_pos (by simpa using ht)]
    have hl1 : lookupA (joinLobby s c u).lobbies c =
        some { l with participants := markConnected l.participants u } := by
      rw [hj]
      show lookupA (setA s.lobbies c _) c = _
      rw [lookupA_setA, if_pos rfl]
    simp only [hl1]
    show lookupA (setA (joinLobby s c u).lobbies c _) c = _
    rw [lookupA_setA, if_pos rfl]
  · exact hasParticipant_removeParticipant _ u

/-- Witness for C10 at the concrete reachable state `c10pre` (bob
disconnected at time 1000, sweep at time 302000). -/
theorem C10_reconnect_does_not_cancel_sweep_witness :
    lookupA (joinLobby c10pre "AAAAAA" "bob").disconnectedPlayers "bob" =
      some ⟨"AAAAAA", 1000⟩ ∧
    (∃ p ∈ markConnected c10lobby.participants "bob",
      p.username = "bob" ∧ p.connected = true) ∧
    lookupA (joinLobby c10pre "AAAAAA" "bob").lobbies "AAAAAA" =
      some { c10lobby with participants :=
                             markConnected c10lobby.participants "bob" } ∧
    lookupA (cleanupSweep (joinLobby c10pre "AAAAAA" "bob") 302000).lobbies
        "AAAAAA" =
      some { c10lobby with participants :=
                             removeParticipant
                               (markConnected c10lobby.participants "bob")
                               "bob" } ∧
    hasParticipant
      (removeParticipant (markConnected c10lobby.participants "bob") "bob")
      "bob" = false :=
  C10_reconnect_does_not_cancel_sweep c10pre "AAAAAA" "bob" 1000 302000
    c10lobby (by decide) (by decide) (by decide) (by decide) (by decide)
    (by decide)

end SSM
